import Mathlib

/-!
Shallow embedding of the `concattabs` row-concatenation engine.

The repository ships `setup.py` and `test_concattabs.py`; the module
`concattabs.py` itself (the `render` function) is not under `src/`, so the
core pipeline below is modelled from the specification, with the test file
fixing the concrete data shapes (`RenderColumn`, `TabOutput`, the conflict
message fields) and concrete expected outputs.

Declared semantic types are the enum `number`/`text`/`timestamp`; physical
storage is a separate sum (`int`/`float`/`category`/`text`/`timestamp`),
realised here as the constructors of `Series`.  Floating-point storage is
modelled by exact rationals, and the missing-value marker (pandas
`NaN`/`NaT`/`None`) by `Option.none`.
-/

/-- Declared semantic column type: one of `number`, `text`, `timestamp`. -/
inductive ColumnType where
  | number
  | text
  | timestamp
deriving DecidableEq, Repr

/-- Column metadata presented to `render` (mirrors the `RenderColumn`
dataclass in `test_concattabs.py`): a name, a declared semantic type and an
optional display format. -/
structure RenderColumn where
  name : String
  type : ColumnType
  format : Option String
deriving DecidableEq, Repr

/-- Physical storage of one column: an integer column, a floating-point
column (exact rationals, `none` = NaN), a plain-text column, a categorically
encoded text column, or a timestamp column (`none` = NaT). -/
inductive Series where
  | ints (vs : List Int)
  | floats (vs : List (Option ℚ))
  | texts (vs : List (Option String))
  | cats (vs : List (Option String))
  | times (vs : List (Option Int))
deriving DecidableEq, Repr

/-- Number of rows stored in a series. -/
def Series.length : Series → Nat
  | .ints vs => vs.length
  | .floats vs => vs.length
  | .texts vs => vs.length
  | .cats vs => vs.length
  | .times vs => vs.length

/-- A table: a row count plus an ordered sequence of named, physically typed
columns (the pandas `DataFrame` boundary of the spec). -/
structure Table where
  nrows : Nat
  cols : List (String × Series)
deriving DecidableEq, Repr

/-- Well-formedness of a table: every column holds exactly `nrows` values and
column names are distinct (the spec's Table invariant). -/
def Table.Wf (t : Table) : Prop :=
  (∀ p ∈ t.cols, Series.length p.2 = t.nrows) ∧ (t.cols.map Prod.fst).Nodup

instance (t : Table) : Decidable t.Wf := by
  unfold Table.Wf
  infer_instance

deriving instance DecidableEq for Except

/-- Source descriptor (mirrors the `TabOutput` dataclass in
`test_concattabs.py`): slug (permanent ID), user-visible name, declared
column metadata keyed by column name in declaration order, and the data. -/
structure TabOutput where
  slug : String
  name : String
  columns : List (String × RenderColumn)
  dataframe : Table
deriving DecidableEq, Repr

/-- Recognized configuration options of the invocation contract: the ordered
list of source descriptors, the provenance flag, and the provenance column
name. -/
structure Params where
  tabs : List TabOutput
  add_source_column : Bool
  source_column_name : String
deriving DecidableEq, Repr

/-- Structured conflict record, field-for-field the i18n message arguments
asserted by `ConcattabsTest.test_error_different_types`:
`column_name`, the type and tab name of the source under comparison, and the
type and tab name of the primary ("used") table. -/
structure TypeConflict where
  column_name : String
  column_type : ColumnType
  column_tab_name : String
  used_column_type : ColumnType
  used_column_tab_name : String
deriving DecidableEq, Repr

/-- Look up a declared column by name in a declaration mapping. -/
def lookupDecl (cols : List (String × RenderColumn)) (n : String) :
    Option RenderColumn :=
  (cols.find? (fun p => p.1 == n)).map Prod.snd

/-- Look up a physical column by name in a table. -/
def Table.getSeries (t : Table) (n : String) : Option Series :=
  (t.cols.find? (fun p => p.1 == n)).map Prod.snd

/-- Modelled from the spec: the conflict record built when a source tab
declares a shared column with a different semantic type than the primary
table (`concattabs.py` is not under `src/`). -/
def mkConflict (n : String) (srcType : ColumnType) (srcTab : String)
    (usedType : ColumnType) (usedTab : String) : TypeConflict :=
  ⟨n, srcType, srcTab, usedType, usedTab⟩

/-- Modelled from the spec: the per-column check of the Schema Reconciler of
`concattabs.py` (not under `src/`) — a source's declared column conflicts
when the primary table also declares that name with a different semantic
type. -/
def checkColumn (input_columns : List (String × RenderColumn))
    (tab_name : String) (tabName : String) (p : String × RenderColumn) :
    Option TypeConflict :=
  match lookupDecl input_columns p.1 with
  | some prc =>
      if prc.type = p.2.type then none
      else some (mkConflict p.1 p.2.type tabName prc.type tab_name)
  | none => none

/-- Whether a source's declared column clashes with the primary table's
declaration of the same name. -/
def hasConflictWith (input_columns : List (String × RenderColumn))
    (p : String × RenderColumn) : Bool :=
  match lookupDecl input_columns p.1 with
  | some prc => decide (prc.type ≠ p.2.type)
  | none => false

/-- Modelled from the spec: the Schema Reconciler of `concattabs.py` (not
under `src/`) — scan sources in input order and, within each source, its
declared columns in declaration order; for every column name also declared
by the primary table, compare declared semantic types and return the first
mismatch as a conflict record. -/
def findConflict (input_columns : List (String × RenderColumn))
    (tab_name : String) (tabs : List TabOutput) : Option TypeConflict :=
  tabs.findSome? (fun tab =>
    tab.columns.findSome? (checkColumn input_columns tab_name tab.name))

/-- Modelled from the spec: the Column-Order Unifier of `concattabs.py` (not
under `src/`) — primary columns first in their order, then each source's
not-yet-seen columns in that source's order, sources in input order. -/
def unifiedOrder (primary : List String) (tabs : List TabOutput) :
    List String :=
  tabs.foldl
    (fun acc tab =>
      acc ++ (tab.dataframe.cols.map Prod.fst).filter
        (fun n => ¬ acc.contains n))
    primary

/-- One vertical block contributed to an output column: either the data of a
table that has the column, or a gap of missing markers spanning the rows of
a table that lacks it. -/
inductive Block where
  | data (s : Series)
  | gap (k : Nat)
deriving DecidableEq, Repr

/-- Series carried by a data block, if any. -/
def Block.dataSeries : Block → Option Series
  | .data s => some s
  | .gap _ => none

/-- Whether a block is a gap of missing markers. -/
def Block.isGap : Block → Bool
  | .data _ => false
  | .gap _ => true

/-- Number of rows a block spans. -/
def Block.length : Block → Nat
  | .data s => s.length
  | .gap k => k

/-- Total number of rows spanned by a list of blocks. -/
def blocksLength (bs : List Block) : Nat :=
  (bs.map Block.length).sum

/-- Whether a series is stored as integers. -/
def Series.isInts : Series → Bool
  | .ints _ => true
  | _ => false

/-- Whether a series is numeric storage (integer or floating-point). -/
def Series.isNumeric : Series → Bool
  | .ints _ => true
  | .floats _ => true
  | _ => false

/-- Whether a series is textual storage (plain text or categorical). -/
def Series.isTextual : Series → Bool
  | .texts _ => true
  | .cats _ => true
  | _ => false

/-- Whether a series is stored as plain text. -/
def Series.isTexts : Series → Bool
  | .texts _ => true
  | _ => false

/-- Whether a series is stored categorically encoded. -/
def Series.isCats : Series → Bool
  | .cats _ => true
  | _ => false

/-- Whether a series is timestamp storage. -/
def Series.isTimes : Series → Bool
  | .times _ => true
  | _ => false

/-- Integer payload of an integer series (empty otherwise). -/
def Series.intList : Series → List Int
  | .ints vs => vs
  | _ => []

/-- Exact floating-point cell denoted by an integer cell. -/
def intFloatCell (i : Int) : Option ℚ :=
  some (i : ℚ)

/-- Floating-point cells contributed by a block when the output column is
promoted to floating-point: integers cast exactly, gaps become missing
markers. -/
def blockFloatCells : Block → List (Option ℚ)
  | .data (.ints vs) => vs.map intFloatCell
  | .data (.floats vs) => vs
  | .data _ => []
  | .gap k => List.replicate k none

/-- Text cells contributed by a block when the output column is plain text:
categorical storage is decoded, gaps become missing markers. -/
def blockTextCells : Block → List (Option String)
  | .data (.texts vs) => vs
  | .data (.cats vs) => vs
  | .data _ => []
  | .gap k => List.replicate k none

/-- Timestamp cells contributed by a block, gaps becoming missing markers. -/
def blockTimeCells : Block → List (Option Int)
  | .data (.times vs) => vs
  | .data _ => []
  | .gap k => List.replicate k none

/-- Promotion of a multi-block (or gapped) column: all-integer storage with
no gaps stays integer; numeric storage with a fractional-typed contributor
or a gap becomes floating-point; any text/category mix becomes plain text;
timestamps stay timestamps.  The final branch is unreachable for inputs
whose physical families agree. -/
def promoteGeneral (bs : List Block) : Series :=
  let ds := bs.filterMap Block.dataSeries
  if ds.all Series.isInts && !bs.any Block.isGap then
    Series.ints (ds.flatMap Series.intList)
  else if ds.all Series.isNumeric then
    Series.floats (bs.flatMap blockFloatCells)
  else if ds.all Series.isTextual then
    Series.texts (bs.flatMap blockTextCells)
  else if ds.all Series.isTimes then
    Series.times (bs.flatMap blockTimeCells)
  else
    Series.texts (List.replicate (blocksLength bs) none)

/-- Modelled from the spec: the per-column dtype-promotion of the
Concatenator in `concattabs.py` (not under `src/`).  A column contributed in
full by a single table keeps its physical representation; otherwise the
promotion rules of `promoteGeneral` apply. -/
def promoteBlocks (bs : List Block) : Series :=
  match bs with
  | [Block.data s] => s
  | bs => promoteGeneral bs

/-- The block a single table contributes to output column `n`: its data if
it has the column, otherwise a gap spanning its rows. -/
def blockOf (t : Table) (n : String) : Block :=
  match t.getSeries n with
  | some s => Block.data s
  | none => Block.gap t.nrows

/-- The ordered blocks contributed to output column `n` by the primary table
and then each source's dataframe, in input order. -/
def columnBlocks (table : Table) (tabs : List TabOutput) (n : String) :
    List Block :=
  (table :: tabs.map (fun t => t.dataframe)).map (fun t => blockOf t n)

/-- Modelled from the spec: the stacked output columns of the Concatenator
in `concattabs.py` (not under `src/`) — one column per unified name, each
the promotion of the blocks contributed by every input table in order. -/
def stackedCols (table : Table) (tabs : List TabOutput) :
    List (String × Series) :=
  (unifiedOrder (table.cols.map Prod.fst) tabs).map
    (fun n => (n, promoteBlocks (columnBlocks table tabs n)))

/-- Total output row count: the sum of the row counts of the primary table
and every source table. -/
def totalRows (table : Table) (tabs : List TabOutput) : Nat :=
  table.nrows + (tabs.map (fun t => t.dataframe.nrows)).sum

/-- Modelled from the spec: the provenance column values of the Provenance
Column Injector in `concattabs.py` (not under `src/`) — the primary table's
display name once per primary row, then each source's display name once per
row of that source, in block order. -/
def provenanceCells (table : Table) (tab_name : String)
    (tabs : List TabOutput) : List (Option String) :=
  List.replicate table.nrows (some tab_name) ++
    tabs.flatMap (fun tab => List.replicate tab.dataframe.nrows (some tab.name))

/-- Modelled from the spec: the `render` entry point of `concattabs.py` (not
under `src/`).  Reconcile declared schemas; on the first conflict return the
structured error and no table; otherwise stack all tables against the
unified column order with dtype promotion and, when `add_source_column` is
set, prepend a categorically encoded provenance column. -/
def render (table : Table) (params : Params) (tab_name : String)
    (input_columns : List (String × RenderColumn)) :
    Except TypeConflict Table :=
  match findConflict input_columns tab_name params.tabs with
  | some c => Except.error c
  | none =>
      let base := stackedCols table params.tabs
      if params.add_source_column then
        Except.ok
          ⟨totalRows table params.tabs,
            (params.source_column_name,
              Series.cats (provenanceCells table tab_name params.tabs)) ::
              base⟩
      else
        Except.ok ⟨totalRows table params.tabs, base⟩

/-- The rational 3.3, the first fractional value of `test_coerce_numbers`. -/
def ratThreePointThree : ℚ :=
  ⟨33, 10, by decide, by decide⟩

/-- The rational 4.4, the second fractional value of `test_coerce_numbers`. -/
def ratFourPointFour : ℚ :=
  ⟨22, 5, by decide, by decide⟩

/-- Semantic view of one cell, independent of physical storage: a number
(integers cast exactly), a string (categorical storage decoded), a
timestamp, or the missing-value marker. -/
inductive Value where
  | num (q : ℚ)
  | str (s : String)
  | time (t : Int)
  | na
deriving DecidableEq, Repr

/-- Semantic value of an integer cell: the number it denotes, cast exactly
into the rationals. -/
def intValue (i : Int) : Value :=
  Value.num (i : ℚ)

/-- Semantic value of a numeric cell. -/
def floatValue : Option ℚ → Value
  | some q => Value.num q
  | none => Value.na

/-- Semantic value of a textual cell. -/
def textValue : Option String → Value
  | some s => Value.str s
  | none => Value.na

/-- Semantic value of a timestamp cell. -/
def timeValue : Option Int → Value
  | some t => Value.time t
  | none => Value.na

/-- Semantic values stored in a series, in row order. -/
def Series.values : Series → List Value
  | .ints vs => vs.map intValue
  | .floats vs => vs.map floatValue
  | .texts vs => vs.map textValue
  | .cats vs => vs.map textValue
  | .times vs => vs.map timeValue

/-- Semantic values a block contributes: the series values for a data block,
a run of missing markers for a gap. -/
def Block.values : Block → List Value
  | .data s => s.values
  | .gap k => List.replicate k Value.na

/-- Whether two series belong to the same physical family (numeric, textual
or timestamp). -/
def sameFamily (s t : Series) : Bool :=
  (s.isNumeric && t.isNumeric) || (s.isTextual && t.isTextual) ||
    (s.isTimes && t.isTimes)

/-- Whether all data blocks of a column belong to one physical family: the
situation the promotion rules of the spec are defined for. -/
def homogeneousBlocks (bs : List Block) : Bool :=
  match bs.filterMap Block.dataSeries with
  | [] => true
  | s :: rest => rest.all (fun t => sameFamily s t)

/-- All conflict records of a configuration, in Reconciler scan order:
sources in input order, and within each source its declared columns in
declaration order. -/
def conflictsList (input_columns : List (String × RenderColumn))
    (tab_name : String) (tabs : List TabOutput) : List TypeConflict :=
  tabs.flatMap (fun tab =>
    tab.columns.filterMap (checkColumn input_columns tab_name tab.name))

/-- A source descriptor with its slug (permanent identifier) blanked;
identifies descriptors that agree on everything except the slug. -/
def eraseSlug (t : TabOutput) : TabOutput :=
  ⟨"", t.name, t.columns, t.dataframe⟩

/-! ### Structural lemmas about promotion -/

/-- Promotion of a lone gap block agrees with the general rules. -/
theorem promoteBlocks_shape (b c : Block) (rest : List Block) :
    promoteBlocks (b :: c :: rest) = promoteGeneral (b :: c :: rest) := by
  cases b <;> rfl

/-- Total span of a cons of blocks. -/
theorem blocksLength_cons (b : Block) (bs : List Block) :
    blocksLength (b :: bs) = Block.length b + blocksLength bs := by
  simp [blocksLength]

/-- Concatenating per-block cell lists that each span their block yields the
total span. -/
theorem flatMap_length_of {α : Type} (f : Block → List α) (bs : List Block)
    (h : ∀ b ∈ bs, (f b).length = Block.length b) :
    (bs.flatMap f).length = blocksLength bs := by
  induction bs with
  | nil => rfl
  | cons b rest ih =>
      simp only [List.flatMap_cons, List.length_append, blocksLength_cons]
      rw [h b (List.mem_cons_self _ _),
        ih (fun x hx => h x (List.mem_cons_of_mem _ hx))]

/-- Mapping per-block cell lists to semantic values, block by block, yields
the blockwise semantic values. -/
theorem flatMap_map_values_of {α : Type} (f : Block → List α) (g : α → Value)
    (bs : List Block) (h : ∀ b ∈ bs, (f b).map g = Block.values b) :
    (bs.flatMap f).map g = bs.flatMap Block.values := by
  induction bs with
  | nil => rfl
  | cons b rest ih =>
      simp only [List.flatMap_cons, List.map_append]
      rw [h b (List.mem_cons_self _ _),
        ih (fun x hx => h x (List.mem_cons_of_mem _ hx))]

/-- In the all-integer no-gap case, the promoted integer payload has the
total span. -/
theorem intCase_length (bs : List Block)
    (h1 : ∀ s ∈ bs.filterMap Block.dataSeries, Series.isInts s = true)
    (h2 : ∀ b ∈ bs, Block.isGap b = false) :
    ((bs.filterMap Block.dataSeries).flatMap Series.intList).length =
      blocksLength bs := by
  induction bs with
  | nil => rfl
  | cons b rest ih =>
      cases b with
      | gap k =>
          have := h2 _ (List.mem_cons_self _ _)
          simp [Block.isGap] at this
      | data s =>
          have hs : Series.isInts s = true := by
            apply h1
            simp [List.filterMap_cons, Block.dataSeries]
          cases s with
          | ints vs =>
              simp only [List.filterMap_cons, Block.dataSeries,
                List.flatMap_cons, Series.intList, List.length_append,
                blocksLength_cons, Block.length, Series.length]
              rw [ih (fun x hx => h1 x (by simp [List.filterMap_cons, Block.dataSeries, hx]))
                (fun x hx => h2 x (List.mem_cons_of_mem _ hx))]
          | floats vs => simp [Series.isInts] at hs
          | texts vs => simp [Series.isInts] at hs
          | cats vs => simp [Series.isInts] at hs
          | times vs => simp [Series.isInts] at hs

/-- In the all-integer no-gap case, the promoted integer payload carries the
blockwise semantic values. -/
theorem intCase_values (bs : List Block)
    (h1 : ∀ s ∈ bs.filterMap Block.dataSeries, Series.isInts s = true)
    (h2 : ∀ b ∈ bs, Block.isGap b = false) :
    ((bs.filterMap Block.dataSeries).flatMap Series.intList).map intValue =
      bs.flatMap Block.values := by
  induction bs with
  | nil => rfl
  | cons b rest ih =>
      cases b with
      | gap k =>
          have := h2 _ (List.mem_cons_self _ _)
          simp [Block.isGap] at this
      | data s =>
          have hs : Series.isInts s = true := by
            apply h1
            simp [List.filterMap_cons, Block.dataSeries]
          cases s with
          | ints vs =>
              simp only [List.filterMap_cons, Block.dataSeries,
                List.flatMap_cons, Series.intList, List.map_append,
                Block.values, Series.values]
              rw [ih (fun x hx => h1 x (by simp [List.filterMap_cons, Block.dataSeries, hx]))
                (fun x hx => h2 x (List.mem_cons_of_mem _ hx))]
          | floats vs => simp [Series.isInts] at hs
          | texts vs => simp [Series.isInts] at hs
          | cats vs => simp [Series.isInts] at hs
          | times vs => simp [Series.isInts] at hs

/-- Floating-point cells of a block whose data (if any) is numeric span the
block. -/
theorem blockFloatCells_length (b : Block)
    (h : ∀ s, Block.dataSeries b = some s → Series.isNumeric s = true) :
    (blockFloatCells b).length = Block.length b := by
  cases b with
  | gap k => simp [blockFloatCells, Block.length]
  | data s =>
      have hs := h s rfl
      cases s with
      | ints vs =>
          simp only [blockFloatCells, Block.length, Series.length,
            List.length_map]
      | floats vs => rfl
      | texts vs => simp [Series.isNumeric] at hs
      | cats vs => simp [Series.isNumeric] at hs
      | times vs => simp [Series.isNumeric] at hs

/-- Text cells of a block whose data (if any) is textual span the block. -/
theorem blockTextCells_length (b : Block)
    (h : ∀ s, Block.dataSeries b = some s → Series.isTextual s = true) :
    (blockTextCells b).length = Block.length b := by
  cases b with
  | gap k => simp [blockTextCells, Block.length]
  | data s =>
      have hs := h s rfl
      cases s <;>
        simp_all [blockTextCells, Block.length, Series.length,
          Series.isTextual]

/-- Timestamp cells of a block whose data (if any) is timestamps span the
block. -/
theorem blockTimeCells_length (b : Block)
    (h : ∀ s, Block.dataSeries b = some s → Series.isTimes s = true) :
    (blockTimeCells b).length = Block.length b := by
  cases b with
  | gap k => simp [blockTimeCells, Block.length]
  | data s =>
      have hs := h s rfl
      cases s <;>
        simp_all [blockTimeCells, Block.length, Series.length,
          Series.isTimes]

/-- Membership transfer from the filtered data series of a block list back
to a data-series premise on one block. -/
theorem dataSeries_mem {p : Series → Bool} {bs : List Block}
    (hmem : ∀ s ∈ bs.filterMap Block.dataSeries, p s = true) :
    ∀ b ∈ bs, ∀ s, Block.dataSeries b = some s → p s = true := by
  intro b hb s hs
  exact hmem s (List.mem_filterMap.mpr ⟨b, hb, hs⟩)

/-- The general promotion rules always produce a column spanning exactly the
sum of the block spans. -/
theorem promoteGeneral_length (bs : List Block) :
    Series.length (promoteGeneral bs) = blocksLength bs := by
  simp only [promoteGeneral]
  by_cases h1 : ((bs.filterMap Block.dataSeries).all Series.isInts
      && !bs.any Block.isGap) = true
  · rw [if_pos h1]
    have hall := (Bool.and_eq_true _ _).mp h1
    have hints := List.all_eq_true.mp hall.1
    have hnogap : ∀ b ∈ bs, Block.isGap b = false := by
      intro b hb
      have h2 := hall.2
      simp only [Bool.not_eq_true'] at h2
      simpa using (List.any_eq_false.mp h2) b hb
    exact intCase_length bs hints hnogap
  · rw [if_neg h1]
    by_cases h2 : ((bs.filterMap Block.dataSeries).all Series.isNumeric)
        = true
    · rw [if_pos h2]
      exact flatMap_length_of _ _
        (fun b hb => blockFloatCells_length b
          (dataSeries_mem (List.all_eq_true.mp h2) b hb))
    · rw [if_neg h2]
      by_cases h3 : ((bs.filterMap Block.dataSeries).all Series.isTextual)
          = true
      · rw [if_pos h3]
        exact flatMap_length_of _ _
          (fun b hb => blockTextCells_length b
            (dataSeries_mem (List.all_eq_true.mp h3) b hb))
      · rw [if_neg h3]
        by_cases h4 : ((bs.filterMap Block.dataSeries).all Series.isTimes)
            = true
        · rw [if_pos h4]
          exact flatMap_length_of _ _
            (fun b hb => blockTimeCells_length b
              (dataSeries_mem (List.all_eq_true.mp h4) b hb))
        · rw [if_neg h4]
          simp [Series.length]

/-- Promotion always produces a column spanning exactly the sum of the block
spans. -/
theorem promoteBlocks_length (bs : List Block) :
    Series.length (promoteBlocks bs) = blocksLength bs := by
  match bs with
  | [] => exact promoteGeneral_length []
  | [Block.data s] => simp [promoteBlocks, blocksLength, Block.length]
  | [Block.gap k] => exact promoteGeneral_length [Block.gap k]
  | b :: c :: rest =>
      rw [promoteBlocks_shape]
      exact promoteGeneral_length (b :: c :: rest)

/-- Floating-point cells of a numeric-or-gap block denote exactly the
block's semantic values. -/
theorem blockFloatCells_values (b : Block)
    (h : ∀ s, Block.dataSeries b = some s → Series.isNumeric s = true) :
    (blockFloatCells b).map floatValue = Block.values b := by
  cases b with
  | gap k => simp [blockFloatCells, Block.values, floatValue]
  | data s =>
      have hs := h s rfl
      cases s with
      | ints vs =>
          simp only [blockFloatCells, Block.values, Series.values,
            List.map_map]
          rfl
      | floats vs => rfl
      | texts vs => simp [Series.isNumeric] at hs
      | cats vs => simp [Series.isNumeric] at hs
      | times vs => simp [Series.isNumeric] at hs

/-- Text cells of a textual-or-gap block denote exactly the block's semantic
values. -/
theorem blockTextCells_values (b : Block)
    (h : ∀ s, Block.dataSeries b = some s → Series.isTextual s = true) :
    (blockTextCells b).map textValue = Block.values b := by
  cases b with
  | gap k => simp [blockTextCells, Block.values, textValue]
  | data s =>
      have hs := h s rfl
      cases s with
      | ints vs => simp [Series.isTextual] at hs
      | floats vs => simp [Series.isTextual] at hs
      | texts vs => rfl
      | cats vs => rfl
      | times vs => simp [Series.isTextual] at hs

/-- Timestamp cells of a timestamp-or-gap block denote exactly the block's
semantic values. -/
theorem blockTimeCells_values (b : Block)
    (h : ∀ s, Block.dataSeries b = some s → Series.isTimes s = true) :
    (blockTimeCells b).map timeValue = Block.values b := by
  cases b with
  | gap k => simp [blockTimeCells, Block.values, timeValue]
  | data s =>
      have hs := h s rfl
      cases s with
      | ints vs => simp [Series.isTimes] at hs
      | floats vs => simp [Series.isTimes] at hs
      | texts vs => simp [Series.isTimes] at hs
      | cats vs => simp [Series.isTimes] at hs
      | times vs => rfl

/-- The general promotion rules preserve semantic values blockwise whenever
all data blocks belong to one physical family. -/
theorem promoteGeneral_values (bs : List Block)
    (hhom : homogeneousBlocks bs = true) :
    Series.values (promoteGeneral bs) = bs.flatMap Block.values := by
  have hfam : ((bs.filterMap Block.dataSeries).all Series.isNumeric = true)
      ∨ ((bs.filterMap Block.dataSeries).all Series.isTextual = true)
      ∨ ((bs.filterMap Block.dataSeries).all Series.isTimes = true) := by
    unfold homogeneousBlocks at hhom
    cases hds : bs.filterMap Block.dataSeries with
    | nil => exact Or.inl (by simp)
    | cons s rest =>
        rw [hds] at hhom
        have hrest := List.all_eq_true.mp hhom
        cases s with
        | ints vs =>
            refine Or.inl (List.all_eq_true.mpr ?_)
            intro t ht
            rcases List.mem_cons.mp ht with h | h
            · rw [h]; rfl
            · have := hrest t h
              simp [sameFamily, Series.isNumeric] at this ⊢
              tauto
        | floats vs =>
            refine Or.inl (List.all_eq_true.mpr ?_)
            intro t ht
            rcases List.mem_cons.mp ht with h | h
            · rw [h]; rfl
            · have := hrest t h
              simp [sameFamily, Series.isNumeric] at this ⊢
              tauto
        | texts vs =>
            refine Or.inr (Or.inl (List.all_eq_true.mpr ?_))
            intro t ht
            rcases List.mem_cons.mp ht with h | h
            · rw [h]; rfl
            · have := hrest t h
              simp [sameFamily, Series.isTextual] at this ⊢
              tauto
        | cats vs =>
            refine Or.inr (Or.inl (List.all_eq_true.mpr ?_))
            intro t ht
            rcases List.mem_cons.mp ht with h | h
            · rw [h]; rfl
            · have := hrest t h
              simp [sameFamily, Series.isTextual] at this ⊢
              tauto
        | times vs =>
            refine Or.inr (Or.inr (List.all_eq_true.mpr ?_))
            intro t ht
            rcases List.mem_cons.mp ht with h | h
            · rw [h]; rfl
            · have := hrest t h
              simp [sameFamily, Series.isTimes] at this ⊢
              tauto
  simp only [promoteGeneral]
  by_cases h1 : ((bs.filterMap Block.dataSeries).all Series.isInts
      && !bs.any Block.isGap) = true
  · rw [if_pos h1]
    have hall := (Bool.and_eq_true _ _).mp h1
    have hints := List.all_eq_true.mp hall.1
    have hnogap : ∀ b ∈ bs, Block.isGap b = false := by
      intro b hb
      have h2 := hall.2
      simp only [Bool.not_eq_true'] at h2
      simpa using (List.any_eq_false.mp h2) b hb
    simpa [Series.values] using intCase_values bs hints hnogap
  · rw [if_neg h1]
    by_cases h2 : ((bs.filterMap Block.dataSeries).all Series.isNumeric)
        = true
    · rw [if_pos h2]
      simpa [Series.values] using
        flatMap_map_values_of blockFloatCells floatValue bs
          (fun b hb => blockFloatCells_values b
            (dataSeries_mem (List.all_eq_true.mp h2) b hb))
    · rw [if_neg h2]
      by_cases h3 : ((bs.filterMap Block.dataSeries).all Series.isTextual)
          = true
      · rw [if_pos h3]
        simpa [Series.values] using
          flatMap_map_values_of blockTextCells textValue bs
            (fun b hb => blockTextCells_values b
              (dataSeries_mem (List.all_eq_true.mp h3) b hb))
      · rw [if_neg h3]
        by_cases h4 : ((bs.filterMap Block.dataSeries).all Series.isTimes)
            = true
        · rw [if_pos h4]
          simpa [Series.values] using
            flatMap_map_values_of blockTimeCells timeValue bs
              (fun b hb => blockTimeCells_values b
                (dataSeries_mem (List.all_eq_true.mp h4) b hb))
        · rw [if_neg h4]
          rcases hfam with hf | hf | hf
          · exact absurd hf h2
          · exact absurd hf h3
          · exact absurd hf h4

/-- Promotion preserves semantic values blockwise whenever all data blocks
belong to one physical family. -/
theorem promoteBlocks_values (bs : List Block)
    (hhom : homogeneousBlocks bs = true) :
    Series.values (promoteBlocks bs) = bs.flatMap Block.values := by
  match bs with
  | [] => exact promoteGeneral_values [] hhom
  | [Block.data s] => simp [promoteBlocks, Block.values]
  | [Block.gap k] => exact promoteGeneral_values [Block.gap k] hhom
  | b :: c :: rest =>
      rw [promoteBlocks_shape]
      exact promoteGeneral_values (b :: c :: rest) hhom

/-! ### Render-level structural lemmas -/

/-- With no declared-type conflict, `render` succeeds and returns the
stacked table, with the provenance column prepended exactly when the flag is
set. -/
theorem render_eq_ok (table : Table) (params : Params) (tab_name : String)
    (input_columns : List (String × RenderColumn))
    (hconf : findConflict input_columns tab_name params.tabs = none) :
    render table params tab_name input_columns =
      if params.add_source_column then
        Except.ok ⟨totalRows table params.tabs,
          (params.source_column_name,
            Series.cats (provenanceCells table tab_name params.tabs)) ::
            stackedCols table params.tabs⟩
      else
        Except.ok ⟨totalRows table params.tabs,
          stackedCols table params.tabs⟩ := by
  unfold render
  rw [hconf]

/-- With a declared-type conflict found, `render` returns it as the error
and no table. -/
theorem render_eq_err (table : Table) (params : Params) (tab_name : String)
    (input_columns : List (String × RenderColumn)) (c : TypeConflict)
    (hconf : findConflict input_columns tab_name params.tabs = some c) :
    render table params tab_name input_columns = Except.error c := by
  unfold render
  rw [hconf]

/-- Inversion: a successful `render` means no conflict was found and the
output is the stacked table, with the provenance column prepended exactly
when the flag is set. -/
theorem render_ok_inv (table : Table) (params : Params) (tab_name : String)
    (input_columns : List (String × RenderColumn)) (out : Table)
    (h : render table params tab_name input_columns = Except.ok out) :
    findConflict input_columns tab_name params.tabs = none ∧
      out =
        (if params.add_source_column then
          (⟨totalRows table params.tabs,
            (params.source_column_name,
              Series.cats (provenanceCells table tab_name params.tabs)) ::
              stackedCols table params.tabs⟩ : Table)
        else
          ⟨totalRows table params.tabs, stackedCols table params.tabs⟩) := by
  cases hconf : findConflict input_columns tab_name params.tabs with
  | some c =>
      rw [render_eq_err table params tab_name input_columns c hconf] at h
      exact absurd h (by simp)
  | none =>
      refine ⟨rfl, ?_⟩
      rw [render_eq_ok table params tab_name input_columns hconf] at h
      cases hadd : params.add_source_column <;>
        (rw [hadd] at h; simp at h; simp [h])

/-- A well-formed table contributes a block spanning exactly its rows to any
output column. -/
theorem blockOf_length (t : Table) (hwf : t.Wf) (n : String) :
    Block.length (blockOf t n) = t.nrows := by
  unfold blockOf
  cases hf : t.cols.find? (fun p => p.1 == n) with
  | none => simp [Table.getSeries, hf, Block.length]
  | some p =>
      have hp := List.mem_of_find?_eq_some hf
      have := hwf.1 p hp
      simp [Table.getSeries, hf, Block.length, this]

/-- For well-formed inputs, the blocks of any output column span exactly the
total output rows. -/
theorem columnBlocks_length (table : Table) (tabs : List TabOutput)
    (hwf : table.Wf) (hwfs : ∀ tab ∈ tabs, tab.dataframe.Wf) (n : String) :
    blocksLength (columnBlocks table tabs n) = totalRows table tabs := by
  simp only [columnBlocks, blocksLength, totalRows, List.map_cons,
    List.map_map, List.sum_cons]
  rw [blockOf_length table hwf]
  congr 1
  apply congrArg List.sum
  apply List.map_congr_left
  intro tab htab
  exact blockOf_length tab.dataframe (hwfs tab htab) n

/-- The provenance column spans exactly the total output rows. -/
theorem provenanceCells_length (table : Table) (tab_name : String)
    (tabs : List TabOutput) :
    (provenanceCells table tab_name tabs).length = totalRows table tabs := by
  unfold provenanceCells totalRows
  rw [List.length_append, List.length_replicate]
  congr 1
  induction tabs with
  | nil => rfl
  | cons tab rest ih =>
      simp only [List.flatMap_cons, List.length_append,
        List.length_replicate, List.map_cons, List.sum_cons, ih]

/-- Stacking a table against no sources reproduces its own columns,
dtypes included, when its column names are distinct. -/
theorem stackedCols_nil (m : Nat) (cols : List (String × Series))
    (hnd : (cols.map Prod.fst).Nodup) :
    stackedCols ⟨m, cols⟩ [] = cols := by
  unfold stackedCols unifiedOrder
  simp only [List.foldl_nil]
  induction cols with
  | nil => rfl
  | cons p rest ih =>
      simp only [List.map_cons]
      have hnotin : p.1 ∉ rest.map Prod.fst := by
        simpa using (List.nodup_cons.mp hnd).1
      have hrest := (List.nodup_cons.mp hnd).2
      congr 1
      · show (p.1, promoteBlocks (columnBlocks ⟨m, p :: rest⟩ [] p.1)) = p
        have : Table.getSeries ⟨m, p :: rest⟩ p.1 = some p.2 := by
          simp [Table.getSeries, List.find?_cons_of_pos]
        simp only [columnBlocks, List.map_nil, List.map_cons, blockOf, this]
        exact Prod.ext rfl rfl
      · have hcongr : ∀ n ∈ rest.map Prod.fst,
            (n, promoteBlocks (columnBlocks ⟨m, p :: rest⟩ [] n)) =
              (n, promoteBlocks (columnBlocks ⟨m, rest⟩ [] n)) := by
          intro n hn
          have hne : ¬ ((fun q : String × Series => q.1 == n) p) = true := by
            intro hb
            exact hnotin (by rw [eq_of_beq hb]; exact hn)
          have hskip : List.find? (fun q => q.1 == n) (p :: rest) =
              List.find? (fun q => q.1 == n) rest :=
            List.find?_cons_of_neg _ hne
          simp only [columnBlocks, List.map_nil, List.map_cons, blockOf,
            Table.getSeries, hskip]
        rw [List.map_congr_left hcongr]
        exact ih hrest

/-- The first element of a concatenation of per-element lists is the first
hit of a scan over the elements. -/
theorem head?_flatMap {α β : Type} (f : α → List β) (l : List α) :
    (l.flatMap f).head? = l.findSome? (fun x => (f x).head?) := by
  induction l with
  | nil => rfl
  | cons a rest ih =>
      simp only [List.flatMap_cons, List.head?_append, List.findSome?_cons]
      cases h : (f a).head? with
      | some b => rfl
      | none => simpa using ih

/-- The Reconciler's result is the first entry of the full scan-ordered
conflict list. -/
theorem findConflict_eq_head (input_columns : List (String × RenderColumn))
    (tab_name : String) (tabs : List TabOutput) :
    findConflict input_columns tab_name tabs =
      (conflictsList input_columns tab_name tabs).head? := by
  unfold findConflict conflictsList
  rw [head?_flatMap]
  congr 1
  funext tab
  exact (List.filterMap_head? _ _).symm

/-- Source descriptors that agree apart from their slugs reconcile to the
same conflict result. -/
theorem findConflict_eraseSlug (input_columns : List (String × RenderColumn))
    (tab_name : String) (tabs : List TabOutput) :
    findConflict input_columns tab_name (tabs.map eraseSlug) =
      findConflict input_columns tab_name tabs := by
  unfold findConflict
  rw [List.findSome?_map]
  rfl

/-- Slugs do not influence the unified column order. -/
theorem unifiedOrder_eraseSlug (p : List String) (tabs : List TabOutput) :
    unifiedOrder p (tabs.map eraseSlug) = unifiedOrder p tabs := by
  unfold unifiedOrder
  rw [List.foldl_map]
  rfl

/-- Slugs do not influence the blocks of any output column. -/
theorem columnBlocks_eraseSlug (table : Table) (tabs : List TabOutput)
    (n : String) :
    columnBlocks table (tabs.map eraseSlug) n = columnBlocks table tabs n := by
  unfold columnBlocks
  rw [List.map_map]
  rfl

/-- Slugs do not influence the stacked output columns. -/
theorem stackedCols_eraseSlug (table : Table) (tabs : List TabOutput) :
    stackedCols table (tabs.map eraseSlug) = stackedCols table tabs := by
  unfold stackedCols
  rw [unifiedOrder_eraseSlug]
  simp only [columnBlocks_eraseSlug]

/-- Slugs do not influence the output row count. -/
theorem totalRows_eraseSlug (table : Table) (tabs : List TabOutput) :
    totalRows table (tabs.map eraseSlug) = totalRows table tabs := by
  unfold totalRows
  rw [List.map_map]
  rfl

/-- Slugs do not influence the provenance column. -/
theorem provenanceCells_eraseSlug (table : Table) (tab_name : String)
    (tabs : List TabOutput) :
    provenanceCells table tab_name (tabs.map eraseSlug) =
      provenanceCells table tab_name tabs := by
  unfold provenanceCells
  rw [List.flatMap_map]
  rfl

/-- Render is invariant under blanking every slug. -/
theorem render_eraseSlug (table : Table) (tabs : List TabOutput) (a : Bool)
    (scn tab_name : String)
    (input_columns : List (String × RenderColumn)) :
    render table ⟨tabs.map eraseSlug, a, scn⟩ tab_name input_columns =
      render table ⟨tabs, a, scn⟩ tab_name input_columns := by
  unfold render
  simp only [findConflict_eraseSlug, stackedCols_eraseSlug,
    totalRows_eraseSlug, provenanceCells_eraseSlug]

/-- Characterization of a successful per-column conflict check. -/
theorem checkColumn_eq_some_iff (input_columns : List (String × RenderColumn))
    (tab_name tabName : String) (p : String × RenderColumn)
    (c : TypeConflict) :
    checkColumn input_columns tab_name tabName p = some c ↔
      ∃ prc, lookupDecl input_columns p.1 = some prc ∧
        prc.type ≠ p.2.type ∧
        c = mkConflict p.1 p.2.type tabName prc.type tab_name := by
  cases hl : lookupDecl input_columns p.1 with
  | none => simp [checkColumn, hl]
  | some prc =>
      by_cases he : prc.type = p.2.type
      · simp [checkColumn, hl, he]
      · simp only [checkColumn, hl, if_neg he, Option.some.injEq]
        constructor
        · intro hc
          exact ⟨prc, rfl, he, hc.symm⟩
        · rintro ⟨prc', hprc', _, hc⟩
          cases hprc'
          rw [hc]

/-- A column check succeeds exactly when the clash predicate holds. -/
theorem checkColumn_isSome (input_columns : List (String × RenderColumn))
    (tab_name tabName : String) (p : String × RenderColumn) :
    (checkColumn input_columns tab_name tabName p).isSome =
      hasConflictWith input_columns p := by
  cases hl : lookupDecl input_columns p.1 with
  | none => simp [checkColumn, hasConflictWith, hl]
  | some prc =>
      by_cases he : prc.type = p.2.type
      · simp [checkColumn, hasConflictWith, hl, he]
      · simp [checkColumn, hasConflictWith, hl, he]

/-- A conflict record occurs in the scan-ordered conflict list exactly when
some source declares a shared column at odds with the primary table, and its
fields are then determined as the spec describes. -/
theorem conflictsList_mem_iff (input_columns : List (String × RenderColumn))
    (tab_name : String) (tabs : List TabOutput) (c : TypeConflict) :
    c ∈ conflictsList input_columns tab_name tabs ↔
      ∃ tab ∈ tabs, ∃ p ∈ tab.columns, ∃ prc,
        lookupDecl input_columns p.1 = some prc ∧ prc.type ≠ p.2.type ∧
        c = mkConflict p.1 p.2.type tab.name prc.type tab_name := by
  unfold conflictsList
  simp only [List.mem_flatMap, List.mem_filterMap]
  constructor
  · rintro ⟨tab, htab, p, hp, hg⟩
    obtain ⟨prc, hl, hne, hc⟩ :=
      (checkColumn_eq_some_iff input_columns tab_name tab.name p c).mp hg
    exact ⟨tab, htab, p, hp, prc, hl, hne, hc⟩
  · rintro ⟨tab, htab, p, hp, prc, hl, hne, hc⟩
    exact ⟨tab, htab, p, hp,
      (checkColumn_eq_some_iff input_columns tab_name tab.name p c).mpr
        ⟨prc, hl, hne, hc⟩⟩

/-- The head of a list is a member. -/
theorem mem_of_head?_eq_some {α : Type} {l : List α} {a : α}
    (h : l.head? = some a) : a ∈ l := by
  cases l with
  | nil => simp at h
  | cons b t =>
      simp only [List.head?_cons, Option.some.injEq] at h
      rw [← h]
      exact List.mem_cons_self b t

/-! ### Claims -/

/-- C1: if some column name shared between the primary table and a source
descriptor has different declared semantic types, `render` returns the
structured conflict error — carrying the shared column name, the source's
declared type and display name, and the primary ("used") table's declared
type and display name — and no table at all; the hypothesis is symmetric in
which side holds which type, so the error fires for every such collision
regardless of orientation. -/
theorem C1_type_conflict_aborts (table : Table) (params : Params)
    (tab_name : String) (input_columns : List (String × RenderColumn))
    (h : ∃ tab ∈ params.tabs, ∃ p ∈ tab.columns,
      hasConflictWith input_columns p = true) :
    ∃ c, render table params tab_name input_columns = Except.error c ∧
      ∃ tab ∈ params.tabs, ∃ p ∈ tab.columns, ∃ prc,
        lookupDecl input_columns p.1 = some prc ∧ prc.type ≠ p.2.type ∧
        c = mkConflict p.1 p.2.type tab.name prc.type tab_name := by
  obtain ⟨tab, htab, p, hp, hcw⟩ := h
  have hsome : (findConflict input_columns tab_name params.tabs).isSome
      = true := by
    unfold findConflict
    apply List.findSome?_isSome_iff.mpr
    refine ⟨tab, htab, ?_⟩
    apply List.findSome?_isSome_iff.mpr
    refine ⟨p, hp, ?_⟩
    rw [checkColumn_isSome]
    exact hcw
  obtain ⟨c, hc⟩ := Option.isSome_iff_exists.mp hsome
  refine ⟨c, render_eq_err _ _ _ _ _ hc, ?_⟩
  have hmem : c ∈ conflictsList input_columns tab_name params.tabs := by
    rw [findConflict_eq_head] at hc
    exact mem_of_head?_eq_some hc
  exact (conflictsList_mem_iff _ _ _ _).mp hmem

/-- Witness for C1: the `test_error_different_types` configuration — primary
"Tab 1" declares column "A" as text, source "Tab 2" declares "A" as
number — satisfies the hypothesis, and the theorem yields the error. -/
theorem C1_type_conflict_aborts_witness :
    (∃ tab ∈ ([⟨"tab-2", "Tab 2",
        [("A", ⟨"A", ColumnType.number, some "{}"⟩)],
        ⟨2, [("A", Series.ints [3, 4])]⟩⟩] : List TabOutput),
      ∃ p ∈ tab.columns,
        hasConflictWith [("A", ⟨"A", ColumnType.text, none⟩)] p = true) ∧
    (∃ c, render ⟨2, [("A", Series.texts [some "x", some "y"])]⟩
        ⟨[⟨"tab-2", "Tab 2",
            [("A", ⟨"A", ColumnType.number, some "{}"⟩)],
            ⟨2, [("A", Series.ints [3, 4])]⟩⟩], false, ""⟩
        "Tab 1" [("A", ⟨"A", ColumnType.text, none⟩)] = Except.error c ∧
      ∃ tab ∈ ([⟨"tab-2", "Tab 2",
          [("A", ⟨"A", ColumnType.number, some "{}"⟩)],
          ⟨2, [("A", Series.ints [3, 4])]⟩⟩] : List TabOutput),
        ∃ p ∈ tab.columns, ∃ prc,
          lookupDecl [("A", ⟨"A", ColumnType.text, none⟩)] p.1 = some prc ∧
          prc.type ≠ p.2.type ∧
          c = mkConflict p.1 p.2.type tab.name prc.type "Tab 1") :=
  ⟨by decide, C1_type_conflict_aborts _ _ _ _ (by decide)⟩

/-- C8: invoking the operation with an empty list of source descriptors and
provenance injection disabled returns a table equal to the primary table —
same column names in the same order, same values, same physical dtypes. -/
theorem C8_zero_tabs_identity (table : Table) (tab_name scn : String)
    (input_columns : List (String × RenderColumn))
    (hnd : (table.cols.map Prod.fst).Nodup) :
    render table ⟨[], false, scn⟩ tab_name input_columns =
      Except.ok table := by
  have hconf : findConflict input_columns tab_name ([] : List TabOutput)
      = none := rfl
  rw [render_eq_ok table ⟨[], false, scn⟩ tab_name input_columns hconf]
  cases table with
  | mk m cols =>
      simp only [if_neg (by simp : ¬ ((⟨[], false, scn⟩ : Params).add_source_column = true))]
      rw [stackedCols_nil m cols hnd]
      simp [totalRows]

/-- Witness for C8: a two-row categorically encoded primary table passes
through unchanged. -/
theorem C8_zero_tabs_identity_witness :
    ((([("A", Series.cats [some "a", some "b"])] : List (String × Series)).map
        Prod.fst).Nodup) ∧
    render ⟨2, [("A", Series.cats [some "a", some "b"])]⟩ ⟨[], false, ""⟩
        "Tab 1" [("A", ⟨"A", ColumnType.text, none⟩)] =
      Except.ok ⟨2, [("A", Series.cats [some "a", some "b"])]⟩ :=
  ⟨by decide, C8_zero_tabs_identity _ _ _ _ (by decide)⟩

/-- C9: the conflict returned is the first mismatch in scan order — sources
in input order, then each source's declared columns in declaration order —
and its fields name the shared column, the type and display name of the
source under comparison, and the type and display name of the primary
("used") table. -/
theorem C9_first_conflict_in_scan_order :
    (∀ (input_columns : List (String × RenderColumn)) (tab_name : String)
        (tabs : List TabOutput),
      findConflict input_columns tab_name tabs =
        (conflictsList input_columns tab_name tabs).head?) ∧
    (∀ (input_columns : List (String × RenderColumn)) (tab_name : String)
        (tabs : List TabOutput) (c : TypeConflict),
      c ∈ conflictsList input_columns tab_name tabs →
      ∃ tab ∈ tabs, ∃ p ∈ tab.columns, ∃ prc,
        lookupDecl input_columns p.1 = some prc ∧ prc.type ≠ p.2.type ∧
        c = mkConflict p.1 p.2.type tab.name prc.type tab_name) :=
  ⟨findConflict_eq_head,
    fun input_columns tab_name tabs c hc =>
      (conflictsList_mem_iff input_columns tab_name tabs c).mp hc⟩

/-- Witness for C9: with two sources each clashing on two columns, the scan
returns the first source's first declared clash, and a member of the
conflict list is characterized by the theorem. -/
theorem C9_first_conflict_in_scan_order_witness :
    (findConflict
        [("A", ⟨"A", ColumnType.text, none⟩),
          ("B", ⟨"B", ColumnType.number, none⟩)] "Tab 1"
        [⟨"tab-2", "Tab 2",
            [("B", ⟨"B", ColumnType.text, none⟩),
              ("A", ⟨"A", ColumnType.number, none⟩)],
            ⟨0, []⟩⟩,
          ⟨"tab-3", "Tab 3",
            [("A", ⟨"A", ColumnType.timestamp, none⟩)], ⟨0, []⟩⟩] =
      (conflictsList
        [("A", ⟨"A", ColumnType.text, none⟩),
          ("B", ⟨"B", ColumnType.number, none⟩)] "Tab 1"
        [⟨"tab-2", "Tab 2",
            [("B", ⟨"B", ColumnType.text, none⟩),
              ("A", ⟨"A", ColumnType.number, none⟩)],
            ⟨0, []⟩⟩,
          ⟨"tab-3", "Tab 3",
            [("A", ⟨"A", ColumnType.timestamp, none⟩)], ⟨0, []⟩⟩]).head?) ∧
    (mkConflict "B" ColumnType.text "Tab 2" ColumnType.number "Tab 1" ∈
      conflictsList
        [("A", ⟨"A", ColumnType.text, none⟩),
          ("B", ⟨"B", ColumnType.number, none⟩)] "Tab 1"
        [⟨"tab-2", "Tab 2",
            [("B", ⟨"B", ColumnType.text, none⟩),
              ("A", ⟨"A", ColumnType.number, none⟩)],
            ⟨0, []⟩⟩,
          ⟨"tab-3", "Tab 3",
            [("A", ⟨"A", ColumnType.timestamp, none⟩)], ⟨0, []⟩⟩]) ∧
    (∃ tab ∈ ([⟨"tab-2", "Tab 2",
          [("B", ⟨"B", ColumnType.text, none⟩),
            ("A", ⟨"A", ColumnType.number, none⟩)],
          ⟨0, []⟩⟩,
        ⟨"tab-3", "Tab 3",
          [("A", ⟨"A", ColumnType.timestamp, none⟩)], ⟨0, []⟩⟩] :
          List TabOutput),
      ∃ p ∈ tab.columns, ∃ prc,
        lookupDecl
          [("A", ⟨"A", ColumnType.text, none⟩),
            ("B", ⟨"B", ColumnType.number, none⟩)] p.1 = some prc ∧
        prc.type ≠ p.2.type ∧
        mkConflict "B" ColumnType.text "Tab 2" ColumnType.number "Tab 1" =
          mkConflict p.1 p.2.type tab.name prc.type "Tab 1") :=
  ⟨C9_first_conflict_in_scan_order.1 _ _ _, by decide,
    C9_first_conflict_in_scan_order.2 _ _ _ _ (by decide)⟩

/-- C10: two invocations whose inputs are identical except for the slug
(permanent identifier) fields of the source descriptors return identical
results — the slug influences neither the output table, nor the provenance
column, nor the fields of a conflict error. -/
theorem C10_slug_independence (table : Table) (tabs1 tabs2 : List TabOutput)
    (a : Bool) (scn tab_name : String)
    (input_columns : List (String × RenderColumn))
    (h : tabs1.map eraseSlug = tabs2.map eraseSlug) :
    render table ⟨tabs1, a, scn⟩ tab_name input_columns =
      render table ⟨tabs2, a, scn⟩ tab_name input_columns := by
  rw [← render_eraseSlug table tabs1 a scn tab_name input_columns, h,
    render_eraseSlug]

/-- Witness for C10: the provenance-injection configuration with the source
slug renamed from "tab-2" to "tab-9999" renders identically. -/
theorem C10_slug_independence_witness :
    (([⟨"tab-2", "Tab 2", [("A", ⟨"A", ColumnType.number, some "{}"⟩)],
        ⟨2, [("A", Series.ints [3, 4])]⟩⟩] : List TabOutput).map eraseSlug =
      ([⟨"tab-9999", "Tab 2", [("A", ⟨"A", ColumnType.number, some "{}"⟩)],
        ⟨2, [("A", Series.ints [3, 4])]⟩⟩] : List TabOutput).map eraseSlug) ∧
    render ⟨2, [("A", Series.ints [1, 2])]⟩
        ⟨[⟨"tab-2", "Tab 2", [("A", ⟨"A", ColumnType.number, some "{}"⟩)],
            ⟨2, [("A", Series.ints [3, 4])]⟩⟩], true, "S"⟩
        "Tab 1" [("A", ⟨"A", ColumnType.number, some "{}"⟩)] =
      render ⟨2, [("A", Series.ints [1, 2])]⟩
        ⟨[⟨"tab-9999", "Tab 2", [("A", ⟨"A", ColumnType.number, some "{}"⟩)],
            ⟨2, [("A", Series.ints [3, 4])]⟩⟩], true, "S"⟩
        "Tab 1" [("A", ⟨"A", ColumnType.number, some "{}"⟩)] :=
  ⟨by decide, C10_slug_independence _ _ _ _ _ _ _ (by decide)⟩

/-- Every stacked output column spans the total output rows (well-formed
inputs). -/
theorem stackedCols_mem_length (table : Table) (tabs : List TabOutput)
    (hwf : table.Wf) (hwfs : ∀ tab ∈ tabs, tab.dataframe.Wf)
    (p : String × Series) (hp : p ∈ stackedCols table tabs) :
    Series.length p.2 = totalRows table tabs := by
  unfold stackedCols at hp
  obtain ⟨n, hn, hpe⟩ := List.mem_map.mp hp
  rw [← hpe]
  show Series.length (promoteBlocks (columnBlocks table tabs n)) = _
  rw [promoteBlocks_length, columnBlocks_length table tabs hwf hwfs]

/-- The stacked output column names are the unified column order. -/
theorem stackedCols_names (table : Table) (tabs : List TabOutput) :
    (stackedCols table tabs).map Prod.fst =
      unifiedOrder (table.cols.map Prod.fst) tabs := by
  unfold stackedCols
  rw [List.map_map,
    show (Prod.fst ∘ fun n =>
        (n, promoteBlocks (columnBlocks table tabs n))) = id from rfl,
    List.map_id]

/-- C2: on success the output row count is the sum of all input row counts
(every output column spanning exactly that many rows), and the blocks stack
top-to-bottom primary-first: for a primary table with integer column "A" and
one source declaring "A" as number, the output column "A" is the primary's
values followed by the source's values. -/
theorem C2_row_count_and_stacking_order :
    (∀ (table : Table) (params : Params) (tab_name : String)
        (input_columns : List (String × RenderColumn)) (out : Table),
      Table.Wf table → (∀ tab ∈ params.tabs, Table.Wf tab.dataframe) →
      render table params tab_name input_columns = Except.ok out →
      out.nrows = table.nrows +
          (params.tabs.map (fun t => t.dataframe.nrows)).sum ∧
        ∀ p ∈ out.cols, Series.length p.2 = out.nrows) ∧
    (∀ (xs ys : List Int) (slug tname : String) (fmt1 fmt2 : Option String),
      render ⟨xs.length, [("A", Series.ints xs)]⟩
          ⟨[⟨slug, tname, [("A", ⟨"A", ColumnType.number, fmt2⟩)],
              ⟨ys.length, [("A", Series.ints ys)]⟩⟩], false, ""⟩
          "Tab 1" [("A", ⟨"A", ColumnType.number, fmt1⟩)] =
        Except.ok ⟨xs.length + ys.length, [("A", Series.ints (xs ++ ys))]⟩) := by
  constructor
  · intro table params tab_name input_columns out hwf hwfs h
    obtain ⟨hconf, hout⟩ :=
      render_ok_inv table params tab_name input_columns out h
    cases hadd : params.add_source_column with
    | false =>
        rw [hadd] at hout
        simp only [if_neg (by simp : ¬ (false = true))] at hout
        subst hout
        refine ⟨rfl, ?_⟩
        intro p hp
        exact stackedCols_mem_length table params.tabs hwf hwfs p hp
    | true =>
        rw [hadd] at hout
        simp only [if_pos rfl] at hout
        subst hout
        refine ⟨rfl, ?_⟩
        intro p hp
        rcases List.mem_cons.mp hp with hp | hp
        · rw [hp]
          show (provenanceCells table tab_name params.tabs).length = _
          exact provenanceCells_length table tab_name params.tabs
        · exact stackedCols_mem_length table params.tabs hwf hwfs p hp
  · intro xs ys slug tname fmt1 fmt2
    have hconf : findConflict [("A", ⟨"A", ColumnType.number, fmt1⟩)] "Tab 1"
        [⟨slug, tname, [("A", ⟨"A", ColumnType.number, fmt2⟩)],
          ⟨ys.length, [("A", Series.ints ys)]⟩⟩] = none := by
      simp [findConflict, checkColumn, lookupDecl]
    rw [render_eq_ok _ _ _ _ hconf]
    simp only [if_neg (by simp : ¬ (false = true))]
    congr 1
    refine congrArg₂ Table.mk ?_ ?_
    · simp [totalRows]
    · simp only [stackedCols, unifiedOrder, List.foldl_cons, List.foldl_nil,
        columnBlocks, blockOf, Table.getSeries]
      simp [promoteBlocks_shape, promoteGeneral, Series.intList,
        Series.isInts, Block.isGap, Block.dataSeries]

/-- Witness for C2 at the `test_happy_path` configuration: the hypotheses
hold and the output has four rows, each column spanning them. -/
theorem C2_row_count_and_stacking_order_witness :
    Table.Wf ⟨2, [("A", Series.ints [1, 2])]⟩ ∧
    (∀ tab ∈ ([⟨"tab-2", "Tab 2",
        [("A", ⟨"A", ColumnType.number, some "{}"⟩)],
        ⟨2, [("A", Series.ints [3, 4])]⟩⟩] : List TabOutput),
      Table.Wf tab.dataframe) ∧
    render ⟨2, [("A", Series.ints [1, 2])]⟩
        ⟨[⟨"tab-2", "Tab 2", [("A", ⟨"A", ColumnType.number, some "{}"⟩)],
            ⟨2, [("A", Series.ints [3, 4])]⟩⟩], false, ""⟩
        "Tab 1" [("A", ⟨"A", ColumnType.number, some "{}"⟩)] =
      Except.ok ⟨4, [("A", Series.ints [1, 2, 3, 4])]⟩ ∧
    ((⟨4, [("A", Series.ints [1, 2, 3, 4])]⟩ : Table).nrows =
        (⟨2, [("A", Series.ints [1, 2])]⟩ : Table).nrows +
          (([⟨"tab-2", "Tab 2",
              [("A", ⟨"A", ColumnType.number, some "{}"⟩)],
              ⟨2, [("A", Series.ints [3, 4])]⟩⟩] : List TabOutput).map
            (fun t => t.dataframe.nrows)).sum ∧
      ∀ p ∈ (⟨4, [("A", Series.ints [1, 2, 3, 4])]⟩ : Table).cols,
        Series.length p.2 =
          (⟨4, [("A", Series.ints [1, 2, 3, 4])]⟩ : Table).nrows) :=
  ⟨by decide, by decide, by decide,
    C2_row_count_and_stacking_order.1 ⟨2, [("A", Series.ints [1, 2])]⟩
      ⟨[⟨"tab-2", "Tab 2", [("A", ⟨"A", ColumnType.number, some "{}"⟩)],
          ⟨2, [("A", Series.ints [3, 4])]⟩⟩], false, ""⟩
      "Tab 1" [("A", ⟨"A", ColumnType.number, some "{}"⟩)]
      ⟨4, [("A", Series.ints [1, 2, 3, 4])]⟩
      (by decide) (by decide) (by decide)⟩

/-- C3: on success the output column order (after any provenance column) is
exactly the unified order — the primary table's columns first in their
existing order, then, per source in input order, that source's not-yet-seen
columns in that source's order; a source overlapping nothing contributes all
of its columns at the end, and the order is a deduplicated sequence (no
sorting or name-based reordering). -/
theorem C3_unified_column_order :
    (∀ (table : Table) (params : Params) (tab_name : String)
        (input_columns : List (String × RenderColumn)) (out : Table),
      render table params tab_name input_columns = Except.ok out →
      (params.add_source_column = false →
        out.cols.map Prod.fst =
          unifiedOrder (table.cols.map Prod.fst) params.tabs) ∧
      (params.add_source_column = true →
        out.cols.map Prod.fst =
          params.source_column_name ::
            unifiedOrder (table.cols.map Prod.fst) params.tabs)) ∧
    (∀ p : List String, unifiedOrder p [] = p) ∧
    (∀ (p : List String) (tabs : List TabOutput) (t : TabOutput),
      unifiedOrder p (tabs ++ [t]) =
        unifiedOrder p tabs ++
          (t.dataframe.cols.map Prod.fst).filter
            (fun n => ¬ (unifiedOrder p tabs).contains n)) ∧
    (∀ (p : List String) (tabs : List TabOutput),
      p.Nodup → (∀ tab ∈ tabs, (tab.dataframe.cols.map Prod.fst).Nodup) →
      (unifiedOrder p tabs).Nodup) := by
  refine ⟨?_, ?_, ?_, ?_⟩
  · intro table params tab_name input_columns out h
    obtain ⟨hconf, hout⟩ :=
      render_ok_inv table params tab_name input_columns out h
    constructor
    · intro hadd
      rw [hadd] at hout
      simp only [if_neg (by simp : ¬ (false = true))] at hout
      subst hout
      exact stackedCols_names table params.tabs
    · intro hadd
      rw [hadd] at hout
      simp only [if_pos rfl] at hout
      subst hout
      show params.source_column_name ::
          (stackedCols table params.tabs).map Prod.fst = _
      rw [stackedCols_names table params.tabs]
  · intro p
    rfl
  · intro p tabs t
    unfold unifiedOrder
    rw [List.foldl_append]
    rfl
  · intro p tabs hp htabs
    induction tabs generalizing p with
    | nil => exact hp
    | cons tab rest ih =>
        show (unifiedOrder
          (p ++ (tab.dataframe.cols.map Prod.fst).filter
            (fun n => ¬ p.contains n)) rest).Nodup
        apply ih
        · apply List.Nodup.append hp
          · exact List.Nodup.filter _
              (htabs tab (List.mem_cons_self _ _))
          · intro a ha haf
            have := List.of_mem_filter haf
            simp only [decide_not, Bool.not_eq_true', decide_eq_false_iff_not]
              at this
            exact this (List.elem_iff.mpr ha)
        · intro t ht
          exact htabs t (List.mem_cons_of_mem _ ht)

/-- Witness for C3 at the `test_allow_different_columns` configuration:
primary has only "A", the source only "B"; the output order is ["A", "B"],
and the unified order is deduplicated. -/
theorem C3_unified_column_order_witness :
    render ⟨2, [("A", Series.ints [1, 2])]⟩
        ⟨[⟨"tab-2", "Tab 2", [("B", ⟨"B", ColumnType.number, some "{}"⟩)],
            ⟨2, [("B", Series.ints [3, 4])]⟩⟩], false, ""⟩
        "Tab 1" [("A", ⟨"A", ColumnType.number, some "{}"⟩)] =
      Except.ok ⟨4,
        [("A", Series.floats [some 1, some 2, none, none]),
          ("B", Series.floats [none, none, some 3, some 4])]⟩ ∧
    ((false = false →
      ([("A", Series.floats [some 1, some 2, none, none]),
        ("B", Series.floats [none, none, some 3, some 4])] :
          List (String × Series)).map Prod.fst =
        unifiedOrder ["A"]
          [⟨"tab-2", "Tab 2", [("B", ⟨"B", ColumnType.number, some "{}"⟩)],
            ⟨2, [("B", Series.ints [3, 4])]⟩⟩]) ∧
     (false = true →
      ([("A", Series.floats [some 1, some 2, none, none]),
        ("B", Series.floats [none, none, some 3, some 4])] :
          List (String × Series)).map Prod.fst =
        "" :: unifiedOrder ["A"]
          [⟨"tab-2", "Tab 2", [("B", ⟨"B", ColumnType.number, some "{}"⟩)],
            ⟨2, [("B", Series.ints [3, 4])]⟩⟩])) ∧
    (unifiedOrder ["A"]
        [⟨"tab-2", "Tab 2", [("B", ⟨"B", ColumnType.number, some "{}"⟩)],
          ⟨2, [("B", Series.ints [3, 4])]⟩⟩]).Nodup :=
  ⟨by decide,
    C3_unified_column_order.1 ⟨2, [("A", Series.ints [1, 2])]⟩
      ⟨[⟨"tab-2", "Tab 2", [("B", ⟨"B", ColumnType.number, some "{}"⟩)],
          ⟨2, [("B", Series.ints [3, 4])]⟩⟩], false, ""⟩
      "Tab 1" [("A", ⟨"A", ColumnType.number, some "{}"⟩)]
      ⟨4, [("A", Series.floats [some 1, some 2, none, none]),
        ("B", Series.floats [none, none, some 3, some 4])]⟩
      (by decide),
    C3_unified_column_order.2.2.2 ["A"]
      [⟨"tab-2", "Tab 2", [("B", ⟨"B", ColumnType.number, some "{}"⟩)],
        ⟨2, [("B", Series.ints [3, 4])]⟩⟩]
      (by decide) (by decide)⟩

/-- On success without the provenance flag, the output columns are exactly
the stacked columns. -/
theorem render_ok_false_cols (table : Table) (params : Params)
    (tab_name : String) (input_columns : List (String × RenderColumn))
    (out : Table)
    (hok : render table params tab_name input_columns = Except.ok out)
    (hadd : params.add_source_column = false) :
    out.cols = stackedCols table params.tabs := by
  obtain ⟨hconf, hout⟩ :=
    render_ok_inv table params tab_name input_columns out hok
  rw [hadd] at hout
  simp only [if_neg (by simp : ¬ (false = true))] at hout
  subst hout
  rfl

/-- A stacked output column is the promotion of its blocks. -/
theorem stackedCols_mem_eq (table : Table) (tabs : List TabOutput)
    (n : String) (s : Series) (hmem : (n, s) ∈ stackedCols table tabs) :
    s = promoteBlocks (columnBlocks table tabs n) := by
  unfold stackedCols at hmem
  obtain ⟨n', hn', he⟩ := List.mem_map.mp hmem
  rw [Prod.mk.injEq] at he
  obtain ⟨hn, hs⟩ := he
  subst hn
  exact hs.symm

/-- When the data blocks are numeric but not all-integer-with-no-gaps, the
general promotion is floating-point with blockwise cells. -/
theorem promoteGeneral_floats (bs : List Block)
    (hnum : (bs.filterMap Block.dataSeries).all Series.isNumeric = true)
    (hnotints : ((bs.filterMap Block.dataSeries).all Series.isInts
      && !bs.any Block.isGap) = false) :
    promoteGeneral bs = Series.floats (bs.flatMap blockFloatCells) := by
  unfold promoteGeneral
  rw [if_neg (by rw [hnotints]; simp), if_pos hnum]

/-- When the data blocks are textual and at least one is categorical, the
general promotion is plain text with blockwise cells. -/
theorem promoteGeneral_texts (bs : List Block)
    (htext : (bs.filterMap Block.dataSeries).all Series.isTextual = true)
    (hcat : (bs.filterMap Block.dataSeries).any Series.isCats = true) :
    promoteGeneral bs = Series.texts (bs.flatMap blockTextCells) := by
  obtain ⟨t, ht, htc⟩ := List.any_eq_true.mp hcat
  have htt : ∃ vs, t = Series.cats vs := by
    cases t with
    | ints vs => simp [Series.isCats] at htc
    | floats vs => simp [Series.isCats] at htc
    | texts vs => simp [Series.isCats] at htc
    | cats vs => exact ⟨vs, rfl⟩
    | times vs => simp [Series.isCats] at htc
  obtain ⟨vs, rfl⟩ := htt
  have hnotints : ((bs.filterMap Block.dataSeries).all Series.isInts) =
      false := by
    rcases hh : (bs.filterMap Block.dataSeries).all Series.isInts with _ | _
    · rfl
    · have := List.all_eq_true.mp hh _ ht
      simp [Series.isInts] at this
  have hnotnum : ((bs.filterMap Block.dataSeries).all Series.isNumeric) =
      false := by
    rcases hh : (bs.filterMap Block.dataSeries).all Series.isNumeric
        with _ | _
    · rfl
    · have := List.all_eq_true.mp hh _ ht
      simp [Series.isNumeric] at this
  unfold promoteGeneral
  rw [if_neg (by rw [hnotints]; simp), if_neg (by rw [hnotnum]; simp),
    if_pos htext]

/-- C4: on success, every output column's semantic values are the
concatenation, in table order (primary first, then sources in input order),
of that column's values from every input table that has it, with a run of
missing markers — one per row — substituted for the row-span of every input
table that lacks it; stated for columns whose contributing storages lie in
one physical family, the situation the promotion rules cover. -/
theorem C4_blockwise_values (table : Table) (params : Params)
    (tab_name : String) (input_columns : List (String × RenderColumn))
    (out : Table) (n : String) (s : Series)
    (hok : render table params tab_name input_columns = Except.ok out)
    (hadd : params.add_source_column = false)
    (hmem : (n, s) ∈ out.cols)
    (hhom : homogeneousBlocks (columnBlocks table params.tabs n) = true) :
    Series.values s =
      (columnBlocks table params.tabs n).flatMap Block.values := by
  rw [render_ok_false_cols table params tab_name input_columns out hok hadd]
    at hmem
  rw [stackedCols_mem_eq table params.tabs n s hmem]
  exact promoteBlocks_values _ hhom

/-- Witness for C4 at the `test_allow_different_columns` configuration: the
output column "B" consists of two missing markers (for the primary's
row-span) followed by the source's values. -/
theorem C4_blockwise_values_witness :
    render ⟨2, [("A", Series.ints [1, 2])]⟩
        ⟨[⟨"tab-2", "Tab 2", [("B", ⟨"B", ColumnType.number, some "{}"⟩)],
            ⟨2, [("B", Series.ints [3, 4])]⟩⟩], false, ""⟩
        "Tab 1" [("A", ⟨"A", ColumnType.number, some "{}"⟩)] =
      Except.ok ⟨4,
        [("A", Series.floats [some 1, some 2, none, none]),
          ("B", Series.floats [none, none, some 3, some 4])]⟩ ∧
    (("B", Series.floats [none, none, some 3, some 4]) ∈
      (⟨4, [("A", Series.floats [some 1, some 2, none, none]),
        ("B", Series.floats [none, none, some 3, some 4])]⟩ : Table).cols) ∧
    homogeneousBlocks (columnBlocks ⟨2, [("A", Series.ints [1, 2])]⟩
      [⟨"tab-2", "Tab 2", [("B", ⟨"B", ColumnType.number, some "{}"⟩)],
        ⟨2, [("B", Series.ints [3, 4])]⟩⟩] "B") = true ∧
    Series.values (Series.floats [none, none, some 3, some 4]) =
      (columnBlocks ⟨2, [("A", Series.ints [1, 2])]⟩
        [⟨"tab-2", "Tab 2", [("B", ⟨"B", ColumnType.number, some "{}"⟩)],
          ⟨2, [("B", Series.ints [3, 4])]⟩⟩] "B").flatMap Block.values :=
  ⟨by decide, by decide, by decide,
    C4_blockwise_values ⟨2, [("A", Series.ints [1, 2])]⟩
      ⟨[⟨"tab-2", "Tab 2", [("B", ⟨"B", ColumnType.number, some "{}"⟩)],
          ⟨2, [("B", Series.ints [3, 4])]⟩⟩], false, ""⟩
      "Tab 1" [("A", ⟨"A", ColumnType.number, some "{}"⟩)]
      ⟨4, [("A", Series.floats [some 1, some 2, none, none]),
        ("B", Series.floats [none, none, some 3, some 4])]⟩
      "B" (Series.floats [none, none, some 3, some 4])
      (by decide) (by decide) (by decide) (by decide)⟩

/-- Two numeric storages are one family. -/
theorem sameFamily_of_numeric (s t : Series) (hs : Series.isNumeric s = true)
    (ht : Series.isNumeric t = true) : sameFamily s t = true := by
  simp [sameFamily, hs, ht]

/-- Two textual storages are one family. -/
theorem sameFamily_of_textual (s t : Series) (hs : Series.isTextual s = true)
    (ht : Series.isTextual t = true) : sameFamily s t = true := by
  simp [sameFamily, hs, ht]

/-- All-numeric data blocks are homogeneous. -/
theorem homogeneous_of_numeric (bs : List Block)
    (h : (bs.filterMap Block.dataSeries).all Series.isNumeric = true) :
    homogeneousBlocks bs = true := by
  unfold homogeneousBlocks
  cases hds : bs.filterMap Block.dataSeries with
  | nil => rfl
  | cons s rest =>
      rw [hds] at h
      have hall := List.all_eq_true.mp h
      apply List.all_eq_true.mpr
      intro t ht
      exact sameFamily_of_numeric s t (hall s (List.mem_cons_self _ _))
        (hall t (List.mem_cons_of_mem _ ht))

/-- All-textual data blocks are homogeneous. -/
theorem homogeneous_of_textual (bs : List Block)
    (h : (bs.filterMap Block.dataSeries).all Series.isTextual = true) :
    homogeneousBlocks bs = true := by
  unfold homogeneousBlocks
  cases hds : bs.filterMap Block.dataSeries with
  | nil => rfl
  | cons s rest =>
      rw [hds] at h
      have hall := List.all_eq_true.mp h
      apply List.all_eq_true.mpr
      intro t ht
      exact sameFamily_of_textual s t (hall s (List.mem_cons_self _ _))
        (hall t (List.mem_cons_of_mem _ ht))

/-- Numeric blocks with a float-typed contributor or a gap promote to
floating-point with blockwise cells. -/
theorem promoteBlocks_floats (bs : List Block)
    (hnum : (bs.filterMap Block.dataSeries).all Series.isNumeric = true)
    (hflag : (bs.filterMap Block.dataSeries).any
        (fun t => ! Series.isInts t) = true
      ∨ bs.any Block.isGap = true) :
    promoteBlocks bs = Series.floats (bs.flatMap blockFloatCells) := by
  have hnotints : ((bs.filterMap Block.dataSeries).all Series.isInts
      && !bs.any Block.isGap) = false := by
    rcases hflag with hf | hf
    · obtain ⟨t, ht, htb⟩ := List.any_eq_true.mp hf
      have htf : Series.isInts t = false := by
        revert htb
        cases Series.isInts t <;> simp
      have hall : (bs.filterMap Block.dataSeries).all Series.isInts
          = false := by
        cases hh : (bs.filterMap Block.dataSeries).all Series.isInts with
        | false => rfl
        | true =>
            have := List.all_eq_true.mp hh t ht
            rw [htf] at this
            exact absurd this (by simp)
      rw [hall]
      simp
    · rw [hf]
      simp
  match bs with
  | [] =>
      rcases hflag with hf | hf <;> simp at hf
  | [Block.data s0] =>
      have hi : Series.isInts s0 = false := by
        have := hnotints
        simp only [List.filterMap_cons, Block.dataSeries,
          List.filterMap_nil, List.all_cons, List.all_nil,
          List.any_cons, List.any_nil, Block.isGap] at this
        simpa using this
      have hn : Series.isNumeric s0 = true :=
        List.all_eq_true.mp hnum s0
          (by simp [List.filterMap_cons, Block.dataSeries])
      cases s0 with
      | ints vs => simp [Series.isInts] at hi
      | floats vs =>
          simp [promoteBlocks, blockFloatCells]
      | texts vs => simp [Series.isNumeric] at hn
      | cats vs => simp [Series.isNumeric] at hn
      | times vs => simp [Series.isNumeric] at hn
  | [Block.gap k] =>
      exact promoteGeneral_floats [Block.gap k] hnum hnotints
  | b :: c :: rest =>
      rw [promoteBlocks_shape]
      exact promoteGeneral_floats (b :: c :: rest) hnum hnotints

/-- C5: on success, an output column whose contributing storages are all
numeric becomes floating-point whenever some contributing table stores it
float-typed (in particular with fractional values) or some table lacks it
(so missing markers are required); its cells are the blockwise
concatenation with integers cast exactly, and its semantic values are
exactly the contributing values with missing markers for the gaps. -/
theorem C5_numeric_promotion (table : Table) (params : Params)
    (tab_name : String) (input_columns : List (String × RenderColumn))
    (out : Table) (n : String) (s : Series)
    (hok : render table params tab_name input_columns = Except.ok out)
    (hadd : params.add_source_column = false)
    (hmem : (n, s) ∈ out.cols)
    (hnum : ((columnBlocks table params.tabs n).filterMap
      Block.dataSeries).all Series.isNumeric = true)
    (hflag : ((columnBlocks table params.tabs n).filterMap
        Block.dataSeries).any (fun t => ! Series.isInts t) = true
      ∨ (columnBlocks table params.tabs n).any Block.isGap = true) :
    s = Series.floats
        ((columnBlocks table params.tabs n).flatMap blockFloatCells) ∧
      Series.values s =
        (columnBlocks table params.tabs n).flatMap Block.values := by
  rw [render_ok_false_cols table params tab_name input_columns out hok hadd]
    at hmem
  have hs := stackedCols_mem_eq table params.tabs n s hmem
  constructor
  · rw [hs]
    exact promoteBlocks_floats _ hnum hflag
  · rw [hs]
    exact promoteBlocks_values _ (homogeneous_of_numeric _ hnum)

/-- Witness for C5 at the `test_coerce_numbers` configuration: integer
primary values and fractional source values yield one floating-point column
with all values exact. -/
theorem C5_numeric_promotion_witness :
    render ⟨2, [("A", Series.ints [1, 2])]⟩
        ⟨[⟨"tab-2", "Tab 2", [("A", ⟨"A", ColumnType.number, some "{}"⟩)],
            ⟨2, [("A", Series.floats [some ratThreePointThree,
              some ratFourPointFour])]⟩⟩], false, ""⟩
        "Tab 1" [("A", ⟨"A", ColumnType.number, some "{}"⟩)] =
      Except.ok ⟨4, [("A", Series.floats [some 1, some 2,
        some ratThreePointThree, some ratFourPointFour])]⟩ ∧
    (("A", Series.floats [some 1, some 2, some ratThreePointThree,
        some ratFourPointFour]) ∈
      (⟨4, [("A", Series.floats [some 1, some 2, some ratThreePointThree,
        some ratFourPointFour])]⟩ : Table).cols) ∧
    (Series.floats [some 1, some 2, some ratThreePointThree, some ratFourPointFour] =
        Series.floats ((columnBlocks ⟨2, [("A", Series.ints [1, 2])]⟩
          [⟨"tab-2", "Tab 2", [("A", ⟨"A", ColumnType.number, some "{}"⟩)],
            ⟨2, [("A", Series.floats [some ratThreePointThree,
              some ratFourPointFour])]⟩⟩] "A").flatMap blockFloatCells) ∧
      Series.values (Series.floats [some 1, some 2, some ratThreePointThree,
          some ratFourPointFour]) =
        (columnBlocks ⟨2, [("A", Series.ints [1, 2])]⟩
          [⟨"tab-2", "Tab 2", [("A", ⟨"A", ColumnType.number, some "{}"⟩)],
            ⟨2, [("A", Series.floats [some ratThreePointThree,
              some ratFourPointFour])]⟩⟩] "A").flatMap Block.values) :=
  ⟨by decide, by decide,
    C5_numeric_promotion ⟨2, [("A", Series.ints [1, 2])]⟩
      ⟨[⟨"tab-2", "Tab 2", [("A", ⟨"A", ColumnType.number, some "{}"⟩)],
          ⟨2, [("A", Series.floats [some ratThreePointThree,
            some ratFourPointFour])]⟩⟩], false, ""⟩
      "Tab 1" [("A", ⟨"A", ColumnType.number, some "{}"⟩)]
      ⟨4, [("A", Series.floats [some 1, some 2, some ratThreePointThree,
        some ratFourPointFour])]⟩
      "A" (Series.floats [some 1, some 2, some ratThreePointThree,
        some ratFourPointFour])
      (by decide) (by decide) (by decide) (by decide) (Or.inl (by decide))⟩

/-- Textual blocks mixing categorical and plain-text storage promote to
plain text with blockwise cells. -/
theorem promoteBlocks_texts (bs : List Block)
    (htext : (bs.filterMap Block.dataSeries).all Series.isTextual = true)
    (hcat : (bs.filterMap Block.dataSeries).any Series.isCats = true)
    (htxt : (bs.filterMap Block.dataSeries).any Series.isTexts = true) :
    promoteBlocks bs = Series.texts (bs.flatMap blockTextCells) := by
  match bs with
  | [] => simp at hcat
  | [Block.gap k] =>
      simp [List.filterMap_cons, Block.dataSeries] at hcat
  | [Block.data s0] =>
      obtain ⟨t1, ht1, hb1⟩ := List.any_eq_true.mp hcat
      obtain ⟨t2, ht2, hb2⟩ := List.any_eq_true.mp htxt
      simp only [List.filterMap_cons, Block.dataSeries,
        List.filterMap_nil, List.mem_singleton] at ht1 ht2
      rw [ht1] at hb1
      rw [ht2] at hb2
      cases s0 with
      | ints vs => simp [Series.isCats] at hb1
      | floats vs => simp [Series.isCats] at hb1
      | texts vs => simp [Series.isCats] at hb1
      | cats vs => simp [Series.isTexts] at hb2
      | times vs => simp [Series.isCats] at hb1
  | b :: c :: rest =>
      rw [promoteBlocks_shape]
      exact promoteGeneral_texts (b :: c :: rest) htext hcat

/-- C6: on success, an output column declared across tables with categorical
storage in one contributing table and plain-text storage in another is plain
text — the categorical encoding is not preserved — and both its cell
sequence and its semantic values are the blockwise concatenation,
unchanged. -/
theorem C6_category_text_merge (table : Table) (params : Params)
    (tab_name : String) (input_columns : List (String × RenderColumn))
    (out : Table) (n : String) (s : Series)
    (hok : render table params tab_name input_columns = Except.ok out)
    (hadd : params.add_source_column = false)
    (hmem : (n, s) ∈ out.cols)
    (htext : ((columnBlocks table params.tabs n).filterMap
      Block.dataSeries).all Series.isTextual = true)
    (hcat : ((columnBlocks table params.tabs n).filterMap
      Block.dataSeries).any Series.isCats = true)
    (htxt : ((columnBlocks table params.tabs n).filterMap
      Block.dataSeries).any Series.isTexts = true) :
    s = Series.texts
        ((columnBlocks table params.tabs n).flatMap blockTextCells) ∧
      Series.values s =
        (columnBlocks table params.tabs n).flatMap Block.values := by
  rw [render_ok_false_cols table params tab_name input_columns out hok hadd]
    at hmem
  have hs := stackedCols_mem_eq table params.tabs n s hmem
  constructor
  · rw [hs]
    exact promoteBlocks_texts _ htext hcat htxt
  · rw [hs]
    exact promoteBlocks_values _ (homogeneous_of_textual _ htext)

/-- Witness for C6 at the `test_coerce_categories_and_str` configuration:
categorical ["a","b"] stacked over plain text ["c","d"] yields the plain
text column ["a","b","c","d"]. -/
theorem C6_category_text_merge_witness :
    render ⟨2, [("A", Series.cats [some "a", some "b"])]⟩
        ⟨[⟨"tab-2", "Tab 2", [("A", ⟨"A", ColumnType.text, none⟩)],
            ⟨2, [("A", Series.texts [some "c", some "d"])]⟩⟩], false, ""⟩
        "Tab 1" [("A", ⟨"A", ColumnType.text, none⟩)] =
      Except.ok ⟨4, [("A", Series.texts [some "a", some "b", some "c",
        some "d"])]⟩ ∧
    (("A", Series.texts [some "a", some "b", some "c", some "d"]) ∈
      (⟨4, [("A", Series.texts [some "a", some "b", some "c",
        some "d"])]⟩ : Table).cols) ∧
    (Series.texts [some "a", some "b", some "c", some "d"] =
        Series.texts ((columnBlocks ⟨2, [("A", Series.cats [some "a",
          some "b"])]⟩
          [⟨"tab-2", "Tab 2", [("A", ⟨"A", ColumnType.text, none⟩)],
            ⟨2, [("A", Series.texts [some "c", some "d"])]⟩⟩]
          "A").flatMap blockTextCells) ∧
      Series.values (Series.texts [some "a", some "b", some "c",
          some "d"]) =
        (columnBlocks ⟨2, [("A", Series.cats [some "a", some "b"])]⟩
          [⟨"tab-2", "Tab 2", [("A", ⟨"A", ColumnType.text, none⟩)],
            ⟨2, [("A", Series.texts [some "c", some "d"])]⟩⟩]
          "A").flatMap Block.values) :=
  ⟨by decide, by decide,
    C6_category_text_merge ⟨2, [("A", Series.cats [some "a", some "b"])]⟩
      ⟨[⟨"tab-2", "Tab 2", [("A", ⟨"A", ColumnType.text, none⟩)],
          ⟨2, [("A", Series.texts [some "c", some "d"])]⟩⟩], false, ""⟩
      "Tab 1" [("A", ⟨"A", ColumnType.text, none⟩)]
      ⟨4, [("A", Series.texts [some "a", some "b", some "c", some "d"])]⟩
      "A" (Series.texts [some "a", some "b", some "c", some "d"])
      (by decide) (by decide) (by decide) (by decide) (by decide)
      (by decide)⟩

/-- C7: with no conflict, when `add_source_column` is set the output's first
column bears `source_column_name` and holds, categorically encoded, the
primary table's display name once per primary row followed by each source's
display name once per its rows, the remaining columns being exactly the
stacked columns; every provenance cell is drawn from the display names of
the input tables (at most one distinct value per table); when the flag is
off, no column is added and the output is exactly the stacked columns. -/
theorem C7_provenance_column (table : Table) (params : Params)
    (tab_name : String) (input_columns : List (String × RenderColumn))
    (hconf : findConflict input_columns tab_name params.tabs = none) :
    (params.add_source_column = true →
      render table params tab_name input_columns =
        Except.ok ⟨totalRows table params.tabs,
          (params.source_column_name,
            Series.cats (List.replicate table.nrows (some tab_name) ++
              params.tabs.flatMap (fun tab =>
                List.replicate tab.dataframe.nrows (some tab.name)))) ::
            stackedCols table params.tabs⟩ ∧
      ∀ v ∈ List.replicate table.nrows (some tab_name) ++
          params.tabs.flatMap (fun tab =>
            List.replicate tab.dataframe.nrows (some tab.name)),
        v ∈ some tab_name :: params.tabs.map (fun t => some t.name)) ∧
    (params.add_source_column = false →
      render table params tab_name input_columns =
        Except.ok ⟨totalRows table params.tabs,
          stackedCols table params.tabs⟩) := by
  refine ⟨?_, ?_⟩
  · intro hadd
    constructor
    · rw [render_eq_ok table params tab_name input_columns hconf, hadd]
      simp only [if_pos rfl]
      rfl
    · intro v hv
      rcases List.mem_append.mp hv with h | h
      · rw [List.eq_of_mem_replicate h]
        exact List.mem_cons_self _ _
      · obtain ⟨tab, htab, hm⟩ := List.mem_flatMap.mp h
        rw [List.eq_of_mem_replicate hm]
        exact List.mem_cons_of_mem _ (List.mem_map.mpr ⟨tab, htab, rfl⟩)
  · intro hadd
    rw [render_eq_ok table params tab_name input_columns hconf, hadd]
    simp only [if_neg (by simp : ¬ (false = true))]

/-- Witness for C7 at the `test_add_source_column` configuration: the output
leads with the categorical column "S" = ["Tab 1","Tab 1","Tab 2","Tab 2"]
followed by the stacked integer column. -/
theorem C7_provenance_column_witness :
    findConflict [("A", ⟨"A", ColumnType.number, some "{}"⟩)] "Tab 1"
        [⟨"tab-2", "Tab 2", [("A", ⟨"A", ColumnType.number, some "{}"⟩)],
          ⟨2, [("A", Series.ints [3, 4])]⟩⟩] = none ∧
    ((true = true →
        render ⟨2, [("A", Series.ints [1, 2])]⟩
            ⟨[⟨"tab-2", "Tab 2",
                [("A", ⟨"A", ColumnType.number, some "{}"⟩)],
                ⟨2, [("A", Series.ints [3, 4])]⟩⟩], true, "S"⟩
            "Tab 1" [("A", ⟨"A", ColumnType.number, some "{}"⟩)] =
          Except.ok ⟨4,
            [("S", Series.cats [some "Tab 1", some "Tab 1", some "Tab 2",
              some "Tab 2"]),
              ("A", Series.ints [1, 2, 3, 4])]⟩ ∧
        ∀ v ∈ ([some "Tab 1", some "Tab 1", some "Tab 2", some "Tab 2"] :
            List (Option String)),
          v ∈ ([some "Tab 1", some "Tab 2"] : List (Option String))) ∧
      (true = false →
        render ⟨2, [("A", Series.ints [1, 2])]⟩
            ⟨[⟨"tab-2", "Tab 2",
                [("A", ⟨"A", ColumnType.number, some "{}"⟩)],
                ⟨2, [("A", Series.ints [3, 4])]⟩⟩], true, "S"⟩
            "Tab 1" [("A", ⟨"A", ColumnType.number, some "{}"⟩)] =
          Except.ok ⟨4, [("A", Series.ints [1, 2, 3, 4])]⟩)) :=
  ⟨by decide,
    C7_provenance_column ⟨2, [("A", Series.ints [1, 2])]⟩
      ⟨[⟨"tab-2", "Tab 2", [("A", ⟨"A", ColumnType.number, some "{}"⟩)],
          ⟨2, [("A", Series.ints [3, 4])]⟩⟩], true, "S"⟩
      "Tab 1" [("A", ⟨"A", ColumnType.number, some "{}"⟩)] (by decide)⟩
